import Mathlib

/-!
# Verification of `paddle/fluid/platform/device_context.cc`

A shallow embedding of the device-context registry of the Paddle runtime:
the `DeviceContextPool` (construction over a set of `Place`s, lookup),
the `CudnnHolder` workspace manager (monotonic growth, drain-before-free),
the `CUDADeviceContext` teardown sequence, and the `MKLDNNDeviceContext`
thread-scoped blob cache.

Build-time `#ifdef`s (`PADDLE_WITH_CUDA`, `PADDLE_WITH_MKLDNN`) are modelled
by an explicit `BuildConfig` record; fatal macros (`PADDLE_THROW`,
`PADDLE_ENFORCE_GT`) become `Except PaddleError` results.
-/

set_option autoImplicit false

namespace DeviceContextCC

/-- `platform::Place`: tagged union of `CPUPlace`, `CUDAPlace(device)` and
`CUDAPinnedPlace` (cf. the `is_cpu_place` / `is_gpu_place` /
`is_cuda_pinned_place` dispatch in `DeviceContextPool::DeviceContextPool`). -/
inductive Place where
  | cpuPlace : Place
  | cudaPlace (device : Nat) : Place
  | cudaPinnedPlace : Place
  deriving DecidableEq, Repr

namespace Place

/-- `platform::is_cpu_place`. -/
def is_cpu_place : Place → Bool
  | .cpuPlace => true
  | _ => false

/-- `platform::is_gpu_place`. -/
def is_gpu_place : Place → Bool
  | .cudaPlace _ => true
  | _ => false

/-- `platform::is_cuda_pinned_place`. -/
def is_cuda_pinned_place : Place → Bool
  | .cudaPinnedPlace => true
  | _ => false

/-- A rank on the constructors, used only to give `Place` the strict total
order that `std::set<Place>` sorts by.  The particular order chosen is
irrelevant to every property proved here (only distinctness and membership
of the deduplicated set matter). -/
def rank : Place → Nat
  | .cpuPlace => 0
  | .cudaPlace _ => 1
  | .cudaPinnedPlace => 2

/-- Strict total order on `Place`: by constructor kind, then device index. -/
def lt (p q : Place) : Bool :=
  match p, q with
  | .cudaPlace d, .cudaPlace e => d < e
  | _, _ => p.rank < q.rank

end Place

/-- Build configuration: which `#ifdef` branches are compiled in. -/
structure BuildConfig where
  withCuda : Bool
  withMkldnn : Bool
  deriving DecidableEq, Repr

/-- Errors raised by `PADDLE_ENFORCE_GT` / `PADDLE_THROW`.  `PADDLE_THROW`
carries the literal message from the source; the `PADDLE_ENFORCE_GT`
message is macro-generated and kept abstract. -/
inductive PaddleError where
  | enforceGT : PaddleError
  | thrown (msg : String) : PaddleError
  deriving DecidableEq, Repr

/-- The device-context objects the pool can construct, each recording the
`place_` member its `GetPlace()` returns.  `MKLDNNDeviceContext` derives
from `CPUDeviceContext` and stores the same `place_`. -/
inductive DeviceContext where
  | cpu (place : Place) : DeviceContext
  | mkldnn (place : Place) : DeviceContext
  | cuda (place : Place) : DeviceContext
  | cudaPinned (place : Place) : DeviceContext
  deriving DecidableEq, Repr

namespace DeviceContext

/-- `GetPlace()` of each variant returns the stored `place_`
(`CPUDeviceContext::GetPlace`, `CUDADeviceContext::GetPlace`,
`CUDAPinnedDeviceContext::GetPlace`). -/
def GetPlace : DeviceContext → Place
  | .cpu p => p
  | .mkldnn p => p
  | .cuda p => p
  | .cudaPinned p => p

end DeviceContext

/-- Insertion into a sorted duplicate-free list: `std::set<Place>::insert`. -/
def insertSorted (p : Place) : List Place → List Place
  | [] => [p]
  | q :: rest =>
    if p = q then q :: rest
    else if Place.lt p q then p :: q :: rest
    else q :: insertSorted p rest

/-- The `std::set<Place> set` built by the constructor loop
`for (auto& p : places) set.insert(p);` — the deduplicated places in the
set's iteration order. -/
def placeSet (places : List Place) : List Place :=
  places.foldl (fun s p => insertSorted p s) []

/-- The messages of the two `PADDLE_THROW`s in the constructor (both the
GPU branch and the pinned branch throw the same literal). -/
def cudaNotSupportedMsg : String :=
  "'CUDAPlace' is not supported, Please re-compile with WITH_GPU option"

/-- The message of the `PADDLE_THROW` in `DeviceContextPool::Get`. -/
def placeNotSupportedMsg : String :=
  "'Place' is not supported, Please re-compile with WITH_GPU option"

/-- One iteration of the constructor's `for (auto& p : set)` loop: the
variant emplaced for `p`, or the `PADDLE_THROW` taken, under the given
build configuration. -/
def buildContext (cfg : BuildConfig) (p : Place) : Except PaddleError DeviceContext :=
  if p.is_cpu_place then
    if cfg.withMkldnn then .ok (.mkldnn p) else .ok (.cpu p)
  else if p.is_gpu_place then
    if cfg.withCuda then .ok (.cuda p)
    else .error (.thrown cudaNotSupportedMsg)
  else if p.is_cuda_pinned_place then
    if cfg.withCuda then .ok (.cudaPinned p)
    else .error (.thrown cudaNotSupportedMsg)
  else .ok (.cpu p)  -- unreachable: the three predicates cover every Place

/-- The constructor loop over the deduplicated set, accumulating the
`device_contexts_` map as an association list keyed by `Place`; a
`PADDLE_THROW` in any iteration aborts the whole construction. -/
def buildContexts (cfg : BuildConfig) :
    List Place → Except PaddleError (List (Place × DeviceContext))
  | [] => .ok []
  | p :: rest =>
    match buildContext cfg p with
    | .error e => .error e
    | .ok c =>
      match buildContexts cfg rest with
      | .error e => .error e
      | .ok m => .ok ((p, c) :: m)

/-- `DeviceContextPool`: the `device_contexts_` map, as an association list
in set-iteration order. -/
structure DeviceContextPool where
  device_contexts : List (Place × DeviceContext)
  deriving DecidableEq, Repr

/-- `device_contexts_.find(place)`. -/
def findCtx : List (Place × DeviceContext) → Place → Option DeviceContext
  | [], _ => none
  | (q, c) :: rest, p => if q = p then some c else findCtx rest p

/-- `DeviceContextPool::DeviceContextPool(places)`: enforce non-emptiness,
deduplicate through `std::set`, then emplace one context per distinct
place (fatal on an unsupported place kind). -/
def DeviceContextPool.construct (cfg : BuildConfig) (places : List Place) :
    Except PaddleError DeviceContextPool :=
  if places.length > 0 then
    match buildContexts cfg (placeSet places) with
    | .error e => .error e
    | .ok m => .ok ⟨m⟩
  else .error .enforceGT

/-- `DeviceContextPool::Get(place)`: look the place up in
`device_contexts_`; `PADDLE_THROW` when absent, never construct on
demand. -/
def DeviceContextPool.Get (pool : DeviceContextPool) (place : Place) :
    Except PaddleError DeviceContext :=
  match findCtx pool.device_contexts place with
  | some c => .ok c
  | none => .error (.thrown placeNotSupportedMsg)

/-! ## `CudnnHolder`: the growable workspace manager -/

/-- Observable calls made by the workspace manager and the context
destructor onto the driver / allocator / library capabilities. -/
inductive GpuEvent where
  /-- `cudaStreamSynchronize(*stream_)` inside `ReallocateWorkspace`. -/
  | streamSynchronize : GpuEvent
  /-- `paddle::memory::Free(place_, workspace_)` on the old buffer. -/
  | freeWorkspace : GpuEvent
  /-- `workspace_ = paddle::memory::Alloc(place_, len)`. -/
  | alloc (len : Nat) : GpuEvent
  /-- `cudnn_func(workspace_)` run against a buffer of capacity `len`. -/
  | callFunc (len : Nat) : GpuEvent
  deriving DecidableEq, Repr

/-- The mutable state of `CudnnHolder` that `RunFunc` touches: whether
`workspace_` is non-null, and `workspace_len_`. -/
structure CudnnHolder where
  hasWorkspace : Bool
  workspace_len : Nat
  deriving DecidableEq, Repr

namespace CudnnHolder

/-- The constructor initialises `workspace_(nullptr), workspace_len_(0)`. -/
def init : CudnnHolder := ⟨false, 0⟩

/-- `CudnnHolder::ReallocateWorkspace`: no-op when the request fits;
otherwise synchronize-then-free the old buffer (when one exists) and
allocate exactly the requested length.  Returns the new state and the
trace of capability calls. -/
def ReallocateWorkspace (required_workspace_len : Nat) (h : CudnnHolder) :
    CudnnHolder × List GpuEvent :=
  if required_workspace_len ≤ h.workspace_len then (h, [])
  else
    let drain : List GpuEvent :=
      if h.hasWorkspace then [.streamSynchronize, .freeWorkspace] else []
    (⟨true, required_workspace_len⟩, drain ++ [.alloc required_workspace_len])

/-- `CudnnHolder::RunFunc` (the lock is the serialization point; the body
below is what runs under it): grow if the request exceeds the current
capacity, then invoke `cudnn_func(workspace_)`. -/
def RunFunc (required_workspace_len : Nat) (h : CudnnHolder) :
    CudnnHolder × List GpuEvent :=
  let g :=
    if h.workspace_len < required_workspace_len then
      ReallocateWorkspace required_workspace_len h
    else (h, [])
  (g.1, g.2 ++ [.callFunc g.1.workspace_len])

/-- The state after a sequence of `RunFunc` calls. -/
def runSeq (reqs : List Nat) (h : CudnnHolder) : CudnnHolder :=
  reqs.foldl (fun s r => (RunFunc r s).1) h

end CudnnHolder

/-! ## `CUDADeviceContext` teardown -/

/-- Observable calls of the teardown path of a `CUDADeviceContext`. -/
inductive TeardownEvent where
  | setDevice (d : Nat) : TeardownEvent
  /-- `cudaStreamSynchronize(stream_)` inside `Wait()`. -/
  | streamSynchronize : TeardownEvent
  /-- `cudaGetLastError()` inside `Wait()`. -/
  | getLastError : TeardownEvent
  /-- `WaitStreamCallback()`: drain the callback queue. -/
  | waitStreamCallback : TeardownEvent
  /-- `cublasDestroy(cublas_handle_)`. -/
  | cublasDestroy : TeardownEvent
  /-- `eigen_stream_.reset()`: release the Eigen stream adapter. -/
  | eigenStreamReset : TeardownEvent
  /-- `eigen_device_.reset()`: release the Eigen device adapter. -/
  | eigenDeviceReset : TeardownEvent
  /-- `cudaStreamDestroy(stream_)`. -/
  | streamDestroy : TeardownEvent
  /-- `cudnnDestroy(cudnn_handle_)` in `~CudnnHolder`. -/
  | cudnnDestroy : TeardownEvent
  /-- `paddle::memory::Free(place_, workspace_)` in `~CudnnHolder`. -/
  | freeCudnnWorkspace : TeardownEvent
  deriving DecidableEq, Repr

/-- `CudnnHolder::~CudnnHolder`: destroy the cudnn handle, then free the
workspace buffer when one was allocated. -/
def cudnnHolderDtorTrace (hasWorkspace : Bool) : List TeardownEvent :=
  [.cudnnDestroy] ++ (if hasWorkspace then [.freeCudnnWorkspace] else [])

/-- `CUDADeviceContext::~CUDADeviceContext` followed by the implicit
destruction of its members.  The destructor body runs
`SetDeviceId; Wait(); WaitStreamCallback(); cublasDestroy;
eigen_stream_.reset(); eigen_device_.reset(); cudaStreamDestroy`.
C++ then destroys the data members after the body completes; among them
`cudnn_holder_` (a `std::unique_ptr<CudnnHolder>`), whose destructor
(lines 177-182) runs only at that point — i.e. after `cudaStreamDestroy`.
`hasCudnn` is whether `dynload::HasCUDNN()` held at construction, so that
`cudnn_holder_` is non-null; `cudnnHasWorkspace` is whether its workspace
was ever allocated. -/
def cudaContextTeardownTrace (d : Nat) (hasCudnn cudnnHasWorkspace : Bool) :
    List TeardownEvent :=
  [.setDevice d, .streamSynchronize, .getLastError, .waitStreamCallback,
   .cublasDestroy, .eigenStreamReset, .eigenDeviceReset, .streamDestroy]
  ++ (if hasCudnn then cudnnHolderDtorTrace cudnnHasWorkspace else [])

/-- The teardown events that release a handle or buffer belonging to the
context (as opposed to drains and device selection). -/
def isReleaseEvent : TeardownEvent → Bool
  | .cublasDestroy => true
  | .eigenStreamReset => true
  | .eigenDeviceReset => true
  | .streamDestroy => true
  | .cudnnDestroy => true
  | .freeCudnnWorkspace => true
  | _ => false

/-! ## `MKLDNNDeviceContext` thread-scoped blob cache -/

section BlobCache

variable {α : Type}

/-- `KeyBlob = std::unordered_map<std::string, std::shared_ptr<void>>`,
modelled as an association list; the stored objects are opaque (`α`). -/
abbrev KeyBlob (α : Type) := List (String × α)

/-- `BlobMap = std::unordered_map<int, std::shared_ptr<KeyBlob>>`. -/
abbrev BlobMap (α : Type) := List (Int × KeyBlob α)

/-- `pBlob->find(name)`. -/
def kbFind : KeyBlob α → String → Option α
  | [], _ => none
  | (k, v) :: rest, name => if k = name then some v else kbFind rest name

/-- `(*pBlob)[name] = data` / `key_it->second = data`: insert or
overwrite the entry for `name`. -/
def kbSet : KeyBlob α → String → α → KeyBlob α
  | [], name, data => [(name, data)]
  | (k, v) :: rest, name, data =>
    if k = name then (k, data) :: rest else (k, v) :: kbSet rest name data

/-- `pMap->find(tid)`. -/
def bmFind : BlobMap α → Int → Option (KeyBlob α)
  | [], _ => none
  | (t, b) :: rest, tid => if t = tid then some b else bmFind rest tid

/-- Store (insert or overwrite) the row for `tid`. -/
def bmSet : BlobMap α → Int → KeyBlob α → BlobMap α
  | [], tid, b => [(tid, b)]
  | (t, b0) :: rest, tid, b =>
    if t = tid then (t, b) :: rest else (t, b0) :: bmSet rest tid b

/-- `MKLDNNDeviceContext::SetBlob` under thread id `tid`
(`tid = platform::get_cur_thread_id()`): find or create the calling
thread's `KeyBlob`, then insert-or-overwrite `name -> data` in it.  The
C++ mutates the row through a `shared_ptr` held by the map, so the
updated row is the one stored under `tid`. -/
def SetBlob (m : BlobMap α) (tid : Int) (name : String) (data : α) : BlobMap α :=
  match bmFind m tid with
  | none => bmSet m tid (kbSet [] name data)
  | some pBlob => bmSet m tid (kbSet pBlob name data)

/-- `MKLDNNDeviceContext::GetBlob` under thread id `tid`: look up the
calling thread's row (returning `nullptr` when absent), then the entry for
`name` (returning `nullptr` when absent).  The method only calls `find` on
both maps, so it returns the blob map unchanged; it is returned explicitly
to state the frame property. -/
def GetBlob (m : BlobMap α) (tid : Int) (name : String) :
    Option α × BlobMap α :=
  match bmFind m tid with
  | none => (none, m)
  | some pBlob =>
    match kbFind pBlob name with
    | none => (none, m)
    | some data => (some data, m)

end BlobCache

/-! ## Lemmas: the `Place` order and the `std::set` model -/

theorem Place.lt_irrefl (p : Place) : p.lt p = false := by
  cases p <;> simp [Place.lt, Place.rank]

theorem Place.lt_trans {p q r : Place} (h1 : p.lt q = true) (h2 : q.lt r = true) :
    p.lt r = true := by
  cases p <;> cases q <;> cases r <;>
    simp [Place.lt, Place.rank] at h1 h2 ⊢ <;> omega

theorem Place.lt_total {p q : Place} (h : p ≠ q) :
    p.lt q = true ∨ q.lt p = true := by
  cases p <;> cases q <;> simp [Place.lt, Place.rank] at h ⊢ <;> omega

theorem mem_insertSorted (p q : Place) (s : List Place) :
    q ∈ insertSorted p s ↔ q = p ∨ q ∈ s := by
  induction s with
  | nil => simp [insertSorted]
  | cons a rest ih =>
    by_cases hpa : p = a
    · subst hpa
      rw [show insertSorted p (p :: rest) = p :: rest by simp [insertSorted]]
      simp only [List.mem_cons]
      tauto
    · by_cases hlt : Place.lt p a = true
      · simp only [insertSorted, if_neg hpa, if_pos hlt, List.mem_cons]
      · simp only [insertSorted, if_neg hpa, if_neg hlt, List.mem_cons, ih]
        tauto

theorem pairwise_insertSorted (p : Place) (s : List Place)
    (hs : s.Pairwise (fun a b => Place.lt a b = true)) :
    (insertSorted p s).Pairwise (fun a b => Place.lt a b = true) := by
  induction s with
  | nil => simp [insertSorted]
  | cons a rest ih =>
    rw [List.pairwise_cons] at hs
    obtain ⟨ha, hrest⟩ := hs
    by_cases hpa : p = a
    · subst hpa
      simp only [insertSorted, if_pos rfl]
      exact List.pairwise_cons.mpr ⟨ha, hrest⟩
    · by_cases hlt : Place.lt p a = true
      · simp only [insertSorted, if_neg hpa, if_pos hlt]
        refine List.pairwise_cons.mpr ⟨?_, List.pairwise_cons.mpr ⟨ha, hrest⟩⟩
        intro b hb
        rcases List.mem_cons.mp hb with rfl | hb'
        · exact hlt
        · exact Place.lt_trans hlt (ha b hb')
      · simp only [insertSorted, if_neg hpa, if_neg hlt]
        refine List.pairwise_cons.mpr ⟨?_, ih hrest⟩
        intro b hb
        rw [mem_insertSorted] at hb
        rcases hb with rfl | hb
        · rcases Place.lt_total hpa with h | h
          · exact absurd h hlt
          · exact h
        · exact ha b hb

theorem nodup_of_pairwise_lt (s : List Place)
    (hs : s.Pairwise (fun a b => Place.lt a b = true)) : s.Nodup := by
  induction s with
  | nil => simp
  | cons a rest ih =>
    rw [List.pairwise_cons] at hs
    refine List.nodup_cons.mpr ⟨?_, ih hs.2⟩
    intro hmem
    have := hs.1 a hmem
    rw [Place.lt_irrefl] at this
    exact Bool.false_ne_true this

theorem placeSet_aux_pairwise (l : List Place) (s : List Place)
    (hs : s.Pairwise (fun a b => Place.lt a b = true)) :
    (l.foldl (fun s p => insertSorted p s) s).Pairwise
      (fun a b => Place.lt a b = true) := by
  induction l generalizing s with
  | nil => exact hs
  | cons p rest ih => exact ih _ (pairwise_insertSorted p s hs)

theorem placeSet_aux_mem (l : List Place) (s : List Place) (q : Place) :
    q ∈ l.foldl (fun s p => insertSorted p s) s ↔ q ∈ s ∨ q ∈ l := by
  induction l generalizing s with
  | nil => simp
  | cons p rest ih =>
    simp only [List.foldl_cons, ih, mem_insertSorted, List.mem_cons]
    tauto

theorem placeSet_pairwise (places : List Place) :
    (placeSet places).Pairwise (fun a b => Place.lt a b = true) :=
  placeSet_aux_pairwise places [] (List.Pairwise.nil)

theorem placeSet_nodup (places : List Place) : (placeSet places).Nodup :=
  nodup_of_pairwise_lt _ (placeSet_pairwise places)

theorem mem_placeSet (places : List Place) (q : Place) :
    q ∈ placeSet places ↔ q ∈ places := by
  unfold placeSet
  rw [placeSet_aux_mem]
  simp

/-! ## Lemmas: pool construction and lookup -/

theorem buildContext_getPlace (cfg : BuildConfig) (p : Place)
    (c : DeviceContext) (h : buildContext cfg p = .ok c) :
    c.GetPlace = p := by
  cases p <;>
    simp only [buildContext, Place.is_cpu_place, Place.is_gpu_place,
      Place.is_cuda_pinned_place, Bool.true_eq_false, Bool.false_eq_true,
      if_true, if_false, reduceCtorEq, reduceIte] at h <;>
    split at h <;>
    first
      | (cases h; rfl)
      | cases h

theorem buildContext_ok_of_withCuda (cfg : BuildConfig) (p : Place)
    (hcuda : cfg.withCuda = true) :
    ∃ c, buildContext cfg p = .ok c := by
  cases p <;> by_cases hm : cfg.withMkldnn = true <;>
    simp [buildContext, Place.is_cpu_place, Place.is_gpu_place,
      Place.is_cuda_pinned_place, hcuda, hm]

theorem buildContexts_ok_of_withCuda (cfg : BuildConfig)
    (hcuda : cfg.withCuda = true) (l : List Place) :
    ∃ m, buildContexts cfg l = .ok m := by
  induction l with
  | nil => exact ⟨[], rfl⟩
  | cons p rest ih =>
    obtain ⟨c, hc⟩ := buildContext_ok_of_withCuda cfg p hcuda
    obtain ⟨m, hm⟩ := ih
    exact ⟨(p, c) :: m, by simp [buildContexts, hc, hm]⟩

theorem buildContexts_keys (cfg : BuildConfig) (l : List Place)
    (m : List (Place × DeviceContext)) (h : buildContexts cfg l = .ok m) :
    m.map Prod.fst = l := by
  induction l generalizing m with
  | nil =>
    simp only [buildContexts] at h
    cases h
    simp
  | cons p rest ih =>
    simp only [buildContexts] at h
    split at h
    · cases h
    · split at h
      · cases h
      · cases h
        simp_all

theorem buildContexts_find (cfg : BuildConfig) (l : List Place)
    (m : List (Place × DeviceContext)) (h : buildContexts cfg l = .ok m)
    (p : Place) (hp : p ∈ l) :
    ∃ c, findCtx m p = some c ∧ buildContext cfg p = .ok c := by
  induction l generalizing m with
  | nil => cases hp
  | cons q rest ih =>
    simp only [buildContexts] at h
    split at h
    · cases h
    · rename_i c hc
      split at h
      · cases h
      · rename_i m' hm'
        cases h
        rcases List.mem_cons.mp hp with rfl | hp'
        · exact ⟨c, by simp [findCtx], hc⟩
        · by_cases hqp : q = p
          · subst hqp
            exact ⟨c, by simp [findCtx], hc⟩
          · obtain ⟨c', hfind, hbuild⟩ := ih m' hm' hp'
            exact ⟨c', by simp [findCtx, hqp, hfind], hbuild⟩

theorem findCtx_none (m : List (Place × DeviceContext)) (p : Place)
    (h : p ∉ m.map Prod.fst) : findCtx m p = none := by
  induction m with
  | nil => rfl
  | cons e rest ih =>
    simp only [List.map_cons, List.mem_cons] at h
    push_neg at h
    simpa [findCtx, Ne.symm h.1] using ih h.2

/-! ## Lemmas: the workspace manager -/

namespace CudnnHolder

theorem runFunc_len (s : Nat) (h : CudnnHolder) :
    (RunFunc s h).1.workspace_len = max h.workspace_len s := by
  by_cases hlt : h.workspace_len < s
  · simp [RunFunc, ReallocateWorkspace, hlt, Nat.not_le.mpr hlt,
      Nat.max_eq_right (Nat.le_of_lt hlt)]
  · simp [RunFunc, hlt, Nat.max_eq_left (Nat.not_lt.mp hlt)]

theorem runFunc_len_mono (s : Nat) (h : CudnnHolder) :
    h.workspace_len ≤ (RunFunc s h).1.workspace_len := by
  rw [runFunc_len]
  exact Nat.le_max_left _ _

theorem runSeq_len_mono (reqs : List Nat) (h : CudnnHolder) :
    h.workspace_len ≤ (runSeq reqs h).workspace_len := by
  induction reqs generalizing h with
  | nil => exact Nat.le_refl _
  | cons r rest ih =>
    exact Nat.le_trans (runFunc_len_mono r h) (ih _)

theorem runFunc_trace_last (s : Nat) (h : CudnnHolder) :
    (RunFunc s h).2.getLast? = some (.callFunc (RunFunc s h).1.workspace_len) := by
  by_cases hlt : h.workspace_len < s
  · simp [RunFunc, hlt]
  · simp [RunFunc, hlt]

end CudnnHolder

/-! ## Lemmas: the blob cache -/

section BlobCacheLemmas

variable {α : Type}

theorem bmFind_bmSet_self (m : BlobMap α) (tid : Int) (b : KeyBlob α) :
    bmFind (bmSet m tid b) tid = some b := by
  induction m with
  | nil => simp [bmSet, bmFind]
  | cons e rest ih =>
    obtain ⟨t, b0⟩ := e
    by_cases ht : t = tid
    · simp [bmSet, bmFind, ht]
    · simp [bmSet, bmFind, ht, ih]

theorem bmFind_bmSet_ne (m : BlobMap α) (tid tid' : Int) (b : KeyBlob α)
    (hne : tid' ≠ tid) : bmFind (bmSet m tid b) tid' = bmFind m tid' := by
  induction m with
  | nil => simp [bmSet, bmFind, Ne.symm hne]
  | cons e rest ih =>
    obtain ⟨t, b0⟩ := e
    by_cases ht : t = tid
    · subst ht
      simp [bmSet, bmFind, Ne.symm hne]
    · simp [bmSet, bmFind, ht, ih]

theorem kbFind_kbSet_self (b : KeyBlob α) (name : String) (data : α) :
    kbFind (kbSet b name data) name = some data := by
  induction b with
  | nil => simp [kbSet, kbFind]
  | cons e rest ih =>
    obtain ⟨k, v⟩ := e
    by_cases hk : k = name
    · simp [kbSet, kbFind, hk]
    · simp [kbSet, kbFind, hk, ih]

theorem kbFind_kbSet_ne (b : KeyBlob α) (name name' : String) (data : α)
    (hne : name' ≠ name) :
    kbFind (kbSet b name data) name' = kbFind b name' := by
  induction b with
  | nil => simp [kbSet, kbFind, Ne.symm hne]
  | cons e rest ih =>
    obtain ⟨k, v⟩ := e
    by_cases hk : k = name
    · subst hk
      simp [kbSet, kbFind, Ne.symm hne]
    · simp [kbSet, kbFind, hk, ih]

theorem getBlob_snd (m : BlobMap α) (tid : Int) (name : String) :
    (GetBlob m tid name).2 = m := by
  unfold GetBlob
  split
  · rfl
  · split <;> rfl

theorem getBlob_fst (m : BlobMap α) (tid : Int) (name : String) :
    (GetBlob m tid name).1 =
      (bmFind m tid).bind (fun b => kbFind b name) := by
  unfold GetBlob
  cases hb : bmFind m tid with
  | none => rfl
  | some b => cases hk : kbFind b name <;> simp [hk]

end BlobCacheLemmas

theorem construct_ok_inv (cfg : BuildConfig) (places : List Place)
    (pool : DeviceContextPool)
    (h : DeviceContextPool.construct cfg places = .ok pool) :
    buildContexts cfg (placeSet places) = .ok pool.device_contexts := by
  unfold DeviceContextPool.construct at h
  split at h
  · split at h
    · cases h
    · rename_i m hm
      cases h
      exact hm
  · cases h

theorem buildContext_cpu_ok (cfg : BuildConfig) (p : Place)
    (hp : p.is_cpu_place = true) : ∃ c, buildContext cfg p = .ok c := by
  cases p <;> simp [Place.is_cpu_place] at hp
  by_cases hm : cfg.withMkldnn = true <;>
    simp [buildContext, Place.is_cpu_place, hm]

theorem buildContext_noncpu_error (cfg : BuildConfig) (p : Place)
    (hcuda : cfg.withCuda = false) (hp : p.is_cpu_place = false) :
    buildContext cfg p = .error (.thrown cudaNotSupportedMsg) := by
  cases p <;>
    simp_all [buildContext, Place.is_cpu_place, Place.is_gpu_place,
      Place.is_cuda_pinned_place]

theorem buildContexts_error_of_noncpu (cfg : BuildConfig)
    (hcuda : cfg.withCuda = false) (l : List Place) (p : Place)
    (hp : p ∈ l) (hnotcpu : p.is_cpu_place = false) :
    buildContexts cfg l = .error (.thrown cudaNotSupportedMsg) := by
  induction l with
  | nil => cases hp
  | cons q rest ih =>
    by_cases hq : q.is_cpu_place = true
    · obtain ⟨c, hc⟩ := buildContext_cpu_ok cfg q hq
      have hprest : p ∈ rest := by
        rcases List.mem_cons.mp hp with rfl | hrest
        · rw [hq] at hnotcpu
          cases hnotcpu
        · exact hrest
      simp [buildContexts, hc, ih hprest]
    · have hq' : q.is_cpu_place = false := Bool.eq_false_iff.mpr hq
      simp [buildContexts, buildContext_noncpu_error cfg q hcuda hq']

/-! ## The claims -/

/-- **C1.** For every non-empty list of Places `P` (in a build where all
place kinds are supported, `withCuda = true`), constructing the
`DeviceContextPool` over `P` succeeds and creates exactly one context per
distinct Place in `P` (duplicates collapsed through the `std::set` over
the `Place` total order), and for every `p` in `dedup(P)`, `Get(p)`
returns a context whose `GetPlace()` equals `p`. -/
theorem c1_one_context_per_distinct_place (cfg : BuildConfig)
    (places : List Place) (hcuda : cfg.withCuda = true) (hne : places ≠ []) :
    ∃ pool, DeviceContextPool.construct cfg places = .ok pool ∧
      pool.device_contexts.map Prod.fst = placeSet places ∧
      pool.device_contexts.length = (placeSet places).length ∧
      (placeSet places).Nodup ∧
      (∀ q, q ∈ placeSet places ↔ q ∈ places) ∧
      ∀ p ∈ placeSet places, ∃ c, pool.Get p = .ok c ∧ c.GetPlace = p := by
  obtain ⟨m, hm⟩ := buildContexts_ok_of_withCuda cfg hcuda (placeSet places)
  have hlen : places.length > 0 := List.length_pos.mpr hne
  have hkeys := buildContexts_keys cfg _ m hm
  refine ⟨⟨m⟩, ?_, hkeys, ?_, placeSet_nodup places,
    fun q => mem_placeSet places q, ?_⟩
  · unfold DeviceContextPool.construct
    rw [if_pos hlen, hm]
  · have := congrArg List.length hkeys
    simpa using this
  · intro p hp
    obtain ⟨c, hfind, hbuild⟩ := buildContexts_find cfg _ m hm p hp
    exact ⟨c, by simp [DeviceContextPool.Get, hfind],
      buildContext_getPlace cfg p c hbuild⟩

theorem c1_one_context_per_distinct_place_witness :
    (BuildConfig.mk true false).withCuda = true ∧
    ([Place.cpuPlace, Place.cudaPlace 0, Place.cpuPlace] ≠ ([] : List Place)) ∧
    (∃ pool, DeviceContextPool.construct (BuildConfig.mk true false)
        [Place.cpuPlace, Place.cudaPlace 0, Place.cpuPlace] = .ok pool ∧
      pool.device_contexts.map Prod.fst
        = placeSet [Place.cpuPlace, Place.cudaPlace 0, Place.cpuPlace] ∧
      pool.device_contexts.length
        = (placeSet [Place.cpuPlace, Place.cudaPlace 0, Place.cpuPlace]).length ∧
      (placeSet [Place.cpuPlace, Place.cudaPlace 0, Place.cpuPlace]).Nodup ∧
      (∀ q, q ∈ placeSet [Place.cpuPlace, Place.cudaPlace 0, Place.cpuPlace]
        ↔ q ∈ [Place.cpuPlace, Place.cudaPlace 0, Place.cpuPlace]) ∧
      ∀ p ∈ placeSet [Place.cpuPlace, Place.cudaPlace 0, Place.cpuPlace],
        ∃ c, pool.Get p = .ok c ∧ c.GetPlace = p) :=
  ⟨rfl, by decide,
    c1_one_context_per_distinct_place (BuildConfig.mk true false)
      [Place.cpuPlace, Place.cudaPlace 0, Place.cpuPlace] rfl (by decide)⟩

/-- **C5.** `Get(place)` on a Place for which no context was built fails
with the `PADDLE_THROW` ("'Place' is not supported ...") and never returns
a default or substitute context (the returned value is an `error`, so no
context is produced, and the pool is untouched — nothing is constructed on
demand). -/
theorem c5_get_unregistered_place_fails (cfg : BuildConfig)
    (places : List Place) (pool : DeviceContextPool) (p : Place)
    (hok : DeviceContextPool.construct cfg places = .ok pool)
    (hnot : p ∉ places) :
    pool.Get p = .error (.thrown placeNotSupportedMsg) := by
  have hm := construct_ok_inv cfg places pool hok
  have hkeys := buildContexts_keys cfg _ _ hm
  have hno : p ∉ pool.device_contexts.map Prod.fst := by
    rw [hkeys]
    intro hc
    exact hnot ((mem_placeSet places p).mp hc)
  unfold DeviceContextPool.Get
  rw [findCtx_none _ _ hno]

theorem c5_get_unregistered_place_fails_witness :
    DeviceContextPool.construct (BuildConfig.mk true false) [Place.cpuPlace]
      = .ok ⟨[(Place.cpuPlace, DeviceContext.cpu Place.cpuPlace)]⟩ ∧
    Place.cudaPlace 0 ∉ [Place.cpuPlace] ∧
    DeviceContextPool.Get ⟨[(Place.cpuPlace, DeviceContext.cpu Place.cpuPlace)]⟩
        (Place.cudaPlace 0)
      = .error (.thrown placeNotSupportedMsg) :=
  ⟨rfl, by decide,
    c5_get_unregistered_place_fails (BuildConfig.mk true false) [Place.cpuPlace]
      ⟨[(Place.cpuPlace, DeviceContext.cpu Place.cpuPlace)]⟩ (Place.cudaPlace 0)
      rfl (by decide)⟩

/-- **C6.** Constructing the `DeviceContextPool` over an empty Place set
fails with the `PADDLE_ENFORCE_GT(places.size(), 0)`; no pool (in
particular none with an empty context map) is ever produced. -/
theorem c6_empty_places_fatal (cfg : BuildConfig) :
    DeviceContextPool.construct cfg [] = .error .enforceGT := rfl

/-- **C8 counterexample.** In a build without accelerator support,
constructing the pool over `[CUDAPinnedPlace]` does fail fatally, but the
message names `'CUDAPlace'` — the accelerator place — and does not name
the pinned-host place, contradicting the claim that the message names the
unsupported Place kind for `HostPinned`. -/
theorem c8_counterexample :
    DeviceContextPool.construct (BuildConfig.mk false false)
        [Place.cudaPinnedPlace]
      = .error (.thrown cudaNotSupportedMsg) ∧
    "CUDAPlace".toList <:+: cudaNotSupportedMsg.toList ∧
    ¬ ("CUDAPinned".toList <:+: cudaNotSupportedMsg.toList) := by
  refine ⟨rfl, by decide, by decide⟩

/-- **C8 (amended).** When accelerator support is not compiled in,
constructing the registry over a set containing any non-host Place
(`CUDAPlace` or `CUDAPinnedPlace`) fails fatally with the message naming
`'CUDAPlace'`; the pinned-host failure reuses the accelerator-place
message rather than naming the pinned-host place. -/
theorem c8_unsupported_place_fatal_message (cfg : BuildConfig)
    (places : List Place) (p : Place) (hcuda : cfg.withCuda = false)
    (hp : p ∈ places) (hnotcpu : p.is_cpu_place = false) :
    DeviceContextPool.construct cfg places
      = .error (.thrown cudaNotSupportedMsg) ∧
    "CUDAPlace".toList <:+: cudaNotSupportedMsg.toList := by
  have hlen : places.length > 0 :=
    List.length_pos.mpr (List.ne_nil_of_mem hp)
  have hmem : p ∈ placeSet places := (mem_placeSet places p).mpr hp
  constructor
  · unfold DeviceContextPool.construct
    rw [if_pos hlen,
      buildContexts_error_of_noncpu cfg hcuda (placeSet places) p hmem hnotcpu]
  · decide

theorem c8_unsupported_place_fatal_message_witness :
    (BuildConfig.mk false false).withCuda = false ∧
    Place.cudaPinnedPlace ∈ [Place.cudaPinnedPlace] ∧
    Place.cudaPinnedPlace.is_cpu_place = false ∧
    (DeviceContextPool.construct (BuildConfig.mk false false)
        [Place.cudaPinnedPlace]
      = .error (.thrown cudaNotSupportedMsg) ∧
    "CUDAPlace".toList <:+: cudaNotSupportedMsg.toList) :=
  ⟨rfl, by decide, rfl,
    c8_unsupported_place_fatal_message (BuildConfig.mk false false)
      [Place.cudaPinnedPlace] Place.cudaPinnedPlace rfl (by decide) rfl⟩

/-- **C2.** For the accelerator context's workspace, capacity is
monotonically non-decreasing across the holder's lifetime: after a
`RunFunc` call requesting `s2` bytes, every later call requesting
`s1 ≤ s2` bytes operates on a buffer of capacity `≥ s2` (the `cudnn_func`
is invoked against the post-growth capacity, recorded in the trailing
`callFunc` event), the buffer is never shrunk by any sequence of calls,
and a growth step sets the capacity to exactly the requested size. -/
theorem c2_workspace_capacity_monotonic (h : CudnnHolder) (s1 s2 : Nat)
    (mid : List Nat) (hle : s1 ≤ s2) :
    s2 ≤ (CudnnHolder.runSeq mid (CudnnHolder.RunFunc s2 h).1).workspace_len ∧
    (CudnnHolder.RunFunc s1
        (CudnnHolder.runSeq mid (CudnnHolder.RunFunc s2 h).1)).2.getLast?
      = some (.callFunc (CudnnHolder.RunFunc s1
          (CudnnHolder.runSeq mid (CudnnHolder.RunFunc s2 h).1)).1.workspace_len) ∧
    s2 ≤ (CudnnHolder.RunFunc s1
        (CudnnHolder.runSeq mid (CudnnHolder.RunFunc s2 h).1)).1.workspace_len ∧
    (∀ (st : CudnnHolder) (s : Nat), st.workspace_len < s →
      (CudnnHolder.RunFunc s st).1.workspace_len = s) ∧
    (∀ (st : CudnnHolder) (reqs : List Nat),
      st.workspace_len ≤ (CudnnHolder.runSeq reqs st).workspace_len) := by
  have h2 : s2 ≤ (CudnnHolder.RunFunc s2 h).1.workspace_len := by
    rw [CudnnHolder.runFunc_len]
    exact Nat.le_max_right _ _
  have h3 : s2 ≤ (CudnnHolder.runSeq mid (CudnnHolder.RunFunc s2 h).1).workspace_len :=
    Nat.le_trans h2 (CudnnHolder.runSeq_len_mono mid _)
  refine ⟨h3, CudnnHolder.runFunc_trace_last _ _,
    Nat.le_trans h3 (CudnnHolder.runFunc_len_mono s1 _), ?_, ?_⟩
  · intro st s hlt
    rw [CudnnHolder.runFunc_len]
    exact Nat.max_eq_right (Nat.le_of_lt hlt)
  · intro st reqs
    exact CudnnHolder.runSeq_len_mono reqs st

theorem c2_workspace_capacity_monotonic_witness :
    (5 : Nat) ≤ 10 ∧
    ((10 : Nat) ≤ (CudnnHolder.runSeq [3, 7]
        (CudnnHolder.RunFunc 10 CudnnHolder.init).1).workspace_len ∧
    (CudnnHolder.RunFunc 5
        (CudnnHolder.runSeq [3, 7] (CudnnHolder.RunFunc 10 CudnnHolder.init).1)).2.getLast?
      = some (.callFunc (CudnnHolder.RunFunc 5
          (CudnnHolder.runSeq [3, 7]
            (CudnnHolder.RunFunc 10 CudnnHolder.init).1)).1.workspace_len) ∧
    (10 : Nat) ≤ (CudnnHolder.RunFunc 5
        (CudnnHolder.runSeq [3, 7]
          (CudnnHolder.RunFunc 10 CudnnHolder.init).1)).1.workspace_len ∧
    (∀ (st : CudnnHolder) (s : Nat), st.workspace_len < s →
      (CudnnHolder.RunFunc s st).1.workspace_len = s) ∧
    (∀ (st : CudnnHolder) (reqs : List Nat),
      st.workspace_len ≤ (CudnnHolder.runSeq reqs st).workspace_len)) :=
  ⟨by decide, c2_workspace_capacity_monotonic CudnnHolder.init 5 10 [3, 7] (by decide)⟩

/-- **C3.** Every execution of `RunFunc` that grows the workspace while a
previous buffer exists performs `cudaStreamSynchronize` before the
`memory::Free` of the old buffer (the trace is exactly
synchronize-free-alloc-call); when no previous buffer exists, growth is a
plain allocation with no drain and no free; and in every growing trace any
`freeWorkspace` event is preceded by a `streamSynchronize` event. -/
theorem c3_growth_drains_before_free (h : CudnnHolder) (s : Nat)
    (hgrow : h.workspace_len < s) :
    (h.hasWorkspace = true →
      (CudnnHolder.RunFunc s h).2
        = [.streamSynchronize, .freeWorkspace, .alloc s, .callFunc s]) ∧
    (h.hasWorkspace = false →
      (CudnnHolder.RunFunc s h).2 = [.alloc s, .callFunc s]) ∧
    (∀ (j : Nat), (CudnnHolder.RunFunc s h).2[j]? = some GpuEvent.freeWorkspace →
      ∃ i, i < j ∧ (CudnnHolder.RunFunc s h).2[i]?
        = some GpuEvent.streamSynchronize) := by
  have hnle : ¬ s ≤ h.workspace_len := Nat.not_le.mpr hgrow
  cases hw : h.hasWorkspace with
  | false =>
    have htr : (CudnnHolder.RunFunc s h).2 = [.alloc s, .callFunc s] := by
      simp [CudnnHolder.RunFunc, CudnnHolder.ReallocateWorkspace, hgrow, hnle, hw]
    refine ⟨?_, fun _ => htr, ?_⟩
    · intro hcontra
      cases hcontra
    · intro j hj
      rw [htr] at hj
      rcases j with _ | _ | j <;> simp at hj
  | true =>
    have htr : (CudnnHolder.RunFunc s h).2
        = [.streamSynchronize, .freeWorkspace, .alloc s, .callFunc s] := by
      simp [CudnnHolder.RunFunc, CudnnHolder.ReallocateWorkspace, hgrow, hnle, hw]
    refine ⟨fun _ => htr, ?_, ?_⟩
    · intro hcontra
      cases hcontra
    · intro j hj
      rw [htr] at hj
      rcases j with _ | _ | _ | _ | j
      · simp at hj
      · exact ⟨0, Nat.zero_lt_one, by simp [htr]⟩
      · simp at hj
      · simp at hj
      · simp at hj

theorem c3_growth_drains_before_free_witness :
    (CudnnHolder.mk true 4).workspace_len < 10 ∧
    (((CudnnHolder.mk true 4).hasWorkspace = true →
      (CudnnHolder.RunFunc 10 (CudnnHolder.mk true 4)).2
        = [.streamSynchronize, .freeWorkspace, .alloc 10, .callFunc 10]) ∧
    ((CudnnHolder.mk true 4).hasWorkspace = false →
      (CudnnHolder.RunFunc 10 (CudnnHolder.mk true 4)).2
        = [.alloc 10, .callFunc 10]) ∧
    (∀ (j : Nat), (CudnnHolder.RunFunc 10 (CudnnHolder.mk true 4)).2[j]?
        = some GpuEvent.freeWorkspace →
      ∃ i, i < j ∧ (CudnnHolder.RunFunc 10 (CudnnHolder.mk true 4)).2[i]?
        = some GpuEvent.streamSynchronize)) :=
  ⟨by decide, c3_growth_drains_before_free (CudnnHolder.mk true 4) 10 (by decide)⟩

/-- **C7 counterexample.** With a cudnn holder present (`HasCUDNN()` held
at construction), the full teardown destroys the cudnn handle *after*
`cudaStreamDestroy`: in C++ the `cudnn_holder_` member is destroyed after
the destructor body, so `cudnnDestroy` (a release of a handle belonging to
the context) appears at index 8, after `streamDestroy` at index 7 —
contradicting "nothing belonging to the context is destroyed after the
stream". -/
theorem c7_counterexample :
    (cudaContextTeardownTrace 0 true true)[7]? = some .streamDestroy ∧
    (cudaContextTeardownTrace 0 true true)[8]? = some .cudnnDestroy ∧
    isReleaseEvent .cudnnDestroy = true := by
  refine ⟨by decide, by decide, rfl⟩

/-- **C7 (amended).** Accelerator-context teardown synchronizes (drains)
the stream first, then drains the callback queue, then destroys the
cuBLAS handle, then releases the elementwise-adapter state, then destroys
the stream; no handle or buffer belonging to the context is released
before the drain.  However the convolution holder is a member destroyed
after the destructor body, so its handle (and workspace, when allocated)
are released after the stream is destroyed, not before. -/
theorem c7_teardown_order (d : Nat) (hasCudnn ws : Bool) :
    ((cudaContextTeardownTrace d hasCudnn ws).take 2).all
        (fun e => !isReleaseEvent e) = true ∧
    (cudaContextTeardownTrace d hasCudnn ws)[1]? = some .streamSynchronize ∧
    (cudaContextTeardownTrace d hasCudnn ws)[3]? = some .waitStreamCallback ∧
    (cudaContextTeardownTrace d hasCudnn ws)[4]? = some .cublasDestroy ∧
    (cudaContextTeardownTrace d hasCudnn ws)[5]? = some .eigenStreamReset ∧
    (cudaContextTeardownTrace d hasCudnn ws)[6]? = some .eigenDeviceReset ∧
    (cudaContextTeardownTrace d hasCudnn ws)[7]? = some .streamDestroy ∧
    (hasCudnn = true →
      (cudaContextTeardownTrace d hasCudnn ws)[8]? = some .cudnnDestroy) ∧
    (hasCudnn = true → ws = true →
      (cudaContextTeardownTrace d hasCudnn ws)[9]? = some .freeCudnnWorkspace) := by
  cases hasCudnn <;> cases ws <;>
    simp [cudaContextTeardownTrace, cudnnHolderDtorTrace, isReleaseEvent]

theorem c7_teardown_order_witness :
    ((cudaContextTeardownTrace 0 true true).take 2).all
        (fun e => !isReleaseEvent e) = true ∧
    (cudaContextTeardownTrace 0 true true)[1]? = some .streamSynchronize ∧
    (cudaContextTeardownTrace 0 true true)[3]? = some .waitStreamCallback ∧
    (cudaContextTeardownTrace 0 true true)[4]? = some .cublasDestroy ∧
    (cudaContextTeardownTrace 0 true true)[5]? = some .eigenStreamReset ∧
    (cudaContextTeardownTrace 0 true true)[6]? = some .eigenDeviceReset ∧
    (cudaContextTeardownTrace 0 true true)[7]? = some .streamDestroy ∧
    (true = true →
      (cudaContextTeardownTrace 0 true true)[8]? = some .cudnnDestroy) ∧
    (true = true → true = true →
      (cudaContextTeardownTrace 0 true true)[9]? = some .freeCudnnWorkspace) :=
  c7_teardown_order 0 true true

/-- **C4.** For the thread-scoped blob cache of a freshly constructed
`MKLDNNDeviceContext` (empty `BlobMap`): after `SetBlob("k", v)` under
thread id `A`, a `GetBlob("k")` under a distinct thread id `B` returns
"not found"; a `GetBlob("k")` under `A` returns `v`; and after a further
`SetBlob("k", v2)` under `A`, `GetBlob("k")` under `A` returns `v2`, never
`v`. -/
theorem c4_blob_cache_thread_scoped {α : Type} (tidA tidB : Int)
    (k : String) (v v2 : α) (hAB : tidA ≠ tidB) :
    (GetBlob (SetBlob ([] : BlobMap α) tidA k v) tidB k).1 = none ∧
    (GetBlob (SetBlob ([] : BlobMap α) tidA k v) tidA k).1 = some v ∧
    (GetBlob (SetBlob (SetBlob ([] : BlobMap α) tidA k v) tidA k v2) tidA k).1
      = some v2 ∧
    (v2 ≠ v →
      (GetBlob (SetBlob (SetBlob ([] : BlobMap α) tidA k v) tidA k v2) tidA k).1
        ≠ some v) := by
  have h1 : SetBlob ([] : BlobMap α) tidA k v = [(tidA, [(k, v)])] := rfl
  have h2 : SetBlob [(tidA, [(k, v)])] tidA k v2 = [(tidA, [(k, v2)])] := by
    simp [SetBlob, bmFind, bmSet, kbSet]
  refine ⟨?_, ?_, ?_, ?_⟩
  · rw [h1, getBlob_fst]
    simp [bmFind, hAB]
  · rw [h1, getBlob_fst]
    simp [bmFind, kbFind]
  · rw [h1, h2, getBlob_fst]
    simp [bmFind, kbFind]
  · intro hvv
    rw [h1, h2, getBlob_fst]
    simp [bmFind, kbFind]
    exact fun hc => hvv hc

theorem c4_blob_cache_thread_scoped_witness :
    (1 : Int) ≠ 2 ∧
    ((GetBlob (SetBlob ([] : BlobMap Nat) 1 "k" 5) 2 "k").1 = none ∧
    (GetBlob (SetBlob ([] : BlobMap Nat) 1 "k" 5) 1 "k").1 = some 5 ∧
    (GetBlob (SetBlob (SetBlob ([] : BlobMap Nat) 1 "k" 5) 1 "k" 7) 1 "k").1
      = some 7 ∧
    ((7 : Nat) ≠ 5 →
      (GetBlob (SetBlob (SetBlob ([] : BlobMap Nat) 1 "k" 5) 1 "k" 7) 1 "k").1
        ≠ some 5)) :=
  ⟨by decide, c4_blob_cache_thread_scoped 1 2 "k" 5 7 (by decide)⟩

/-- **C9.** `GetBlob` with an unknown thread identifier (no row for the
calling thread's id) or an unknown name (row present but without the name)
returns "not found" (`none`); the function is total, so it never raises an
error, and the result in both miss cases is `none`, never a stale or
default object. -/
theorem c9_getblob_miss_is_silent {α : Type} (m : BlobMap α) (tid : Int)
    (name : String) :
    (bmFind m tid = none → (GetBlob m tid name).1 = none) ∧
    (∀ b, bmFind m tid = some b → kbFind b name = none →
      (GetBlob m tid name).1 = none) := by
  constructor
  · intro hrow
    rw [getBlob_fst, hrow]
    rfl
  · intro b hrow hname
    rw [getBlob_fst, hrow]
    simpa using hname

theorem c9_getblob_miss_is_silent_witness :
    bmFind ([(1, [("a", 0)])] : BlobMap Nat) 2 = none ∧
    (GetBlob ([(1, [("a", 0)])] : BlobMap Nat) 2 "a").1 = none :=
  ⟨by decide,
    (c9_getblob_miss_is_silent ([(1, [("a", 0)])] : BlobMap Nat) 2 "a").1
      (by decide)⟩

/-- **C10.** `GetBlob` never modifies the cache: on hit or miss (including
a lookup under a thread id with no row) it returns the two-level blob map
exactly unchanged — in particular a miss creates no empty row; and a
`SetBlob` under thread id `tid` for `name` leaves the entry of every other
`(tid', name')` pair unchanged. -/
theorem c10_getblob_pure_setblob_frame {α : Type} (m : BlobMap α)
    (tid tid' : Int) (name name' : String) (data : α)
    (hdiff : tid' ≠ tid ∨ name' ≠ name) :
    (GetBlob m tid name).2 = m ∧
    (GetBlob (SetBlob m tid name data) tid' name').1
      = (GetBlob m tid' name').1 := by
  refine ⟨getBlob_snd m tid name, ?_⟩
  · rw [getBlob_fst, getBlob_fst]
    by_cases ht : tid' = tid
    · subst ht
      have hnm : name' ≠ name := by
        rcases hdiff with hcontra | hname
        · exact absurd rfl hcontra
        · exact hname
      unfold SetBlob
      cases hb : bmFind m tid' with
      | none =>
        rw [bmFind_bmSet_self]
        exact (kbFind_kbSet_ne [] name name' data hnm).trans rfl
      | some b =>
        rw [bmFind_bmSet_self]
        exact kbFind_kbSet_ne b name name' data hnm
    · unfold SetBlob
      cases hb : bmFind m tid with
      | none => rw [bmFind_bmSet_ne _ _ _ _ ht]
      | some b => rw [bmFind_bmSet_ne _ _ _ _ ht]

theorem c10_getblob_pure_setblob_frame_witness :
    ((1 : Int) ≠ 1 ∨ "b" ≠ "a") ∧
    ((GetBlob ([(1, [("a", 2)])] : BlobMap Nat) 1 "a").2 = [(1, [("a", 2)])] ∧
    (GetBlob (SetBlob ([(1, [("a", 2)])] : BlobMap Nat) 1 "a" 9) 1 "b").1
      = (GetBlob ([(1, [("a", 2)])] : BlobMap Nat) 1 "b").1) :=
  ⟨Or.inr (by decide),
    c10_getblob_pure_setblob_frame [(1, [("a", 2)])] 1 1 "a" "b" 9
      (Or.inr (by decide))⟩

end DeviceContextCC
